import Mathlib

/-!
Shallow embedding of the CannaHealth analysis-record store and its HTTP
transport layer, translated from
`src/web/frontend/src/server/analysisStore.ts` (shipped alongside
`analysisStore.test.ts`) and `src/web/frontend/src/pages/api/admin/analysis.ts`.

Modelling conventions:
* JavaScript values occurring in request bodies are modelled by the inductive
  `JVal`.  JSON numbers are modelled as integers (`Int`); fractional scores
  reach the model as numeric strings, and `Number.parseFloat` results are
  modelled as rationals (`Option ℚ`, `none` standing for `NaN`).
* `new Date().toISOString()` and `randomUUID()` are nondeterministic
  environment calls; they are passed to the embedded operations as explicit
  string parameters (oracle passing).
* `Array.prototype.sort` with a comparator is modelled as a stable sort by the
  comparator (`List.insertionSort` over the comparator-induced relation); the
  JS string order `<` coincides with Lean's lexicographic `String` order on
  the ASCII timestamps involved.
* The JS `Map` is modelled as an insertion-ordered association list
  (`List (Nat × StoredAnalysis)`); `Map.set` replaces in place or appends.
* Object aliasing (shared mutable payload references) cannot be seen by a
  pure value model, so a second, reference-level model (`RefModel`) is given
  for the isolation claim: there item payloads are addresses into an explicit
  heap, exactly mirroring that `cloneAnalysis` copies the record and item
  objects by spreading but copies the `payload` field as a reference.
-/

/-- JavaScript values, as far as the transport layer inspects them.
JSON numbers are embedded as integers (see the file header). -/
inductive JVal where
  | jNull
  | jUndef
  | jBool (b : Bool)
  | jNum (n : Int)
  | jStr (s : String)
  | jArr (elems : List JVal)
  | jObj (fields : List (String × JVal))

/-- JS `String(v)` coercion.  Arrays join their elements with commas, with
`null`/`undefined` elements becoming empty strings; plain objects coerce to
`"[object Object]"`. -/
def jsToString : JVal → String
  | .jNull => "null"
  | .jUndef => "undefined"
  | .jBool true => "true"
  | .jBool false => "false"
  | .jNum n => toString n
  | .jStr s => s
  | .jObj _ => "[object Object]"
  | .jArr xs => String.intercalate "," (xs.attach.map (fun x =>
      match x with
      | ⟨.jNull, _⟩ => ""
      | ⟨.jUndef, _⟩ => ""
      | ⟨v, _⟩ => jsToString v))

/-- JS truthiness (`!v` is the negation of this). -/
def jsTruthy : JVal → Bool
  | .jNull => false
  | .jUndef => false
  | .jBool b => b
  | .jNum n => n != 0
  | .jStr s => s != ""
  | .jArr _ => true
  | .jObj _ => true

/-- JS `typeof v === "object"` (true for `null`, arrays and plain objects). -/
def jsTypeofIsObject : JVal → Bool
  | .jNull => true
  | .jArr _ => true
  | .jObj _ => true
  | _ => false

/-- Property access `v[k]` for a named key: defined on plain objects
(first matching field; field names are assumed distinct), `none`
(i.e. `undefined`) everywhere else. -/
def objGet : JVal → String → Option JVal
  | .jObj fields, k => List.lookup k fields
  | _, _ => none

/-- Property access combined with nullish coalescing: `v[k] ?? <next>` skips
missing, `null` and `undefined` values. -/
def nullishGet (v : JVal) (k : String) : Option JVal :=
  match objGet v k with
  | some .jNull => none
  | some .jUndef => none
  | x => x

/-- Decimal digit value of a character, if any. -/
def digitVal (c : Char) : Option Nat :=
  if c.isDigit then some (c.toNat - Char.toNat (Char.ofNat 48)) else none

/-- Split a character list into its leading run of decimal digits and the
rest. -/
def takeDigits : List Char → List Nat × List Char
  | [] => ([], [])
  | c :: cs =>
    match digitVal c with
    | some d =>
      let r := takeDigits cs
      (d :: r.1, r.2)
    | none => ([], c :: cs)

/-- Value of a big-endian digit list. -/
def digitsToNat (ds : List Nat) : Nat := ds.foldl (fun a d => a * 10 + d) 0

/-- Drop leading JS whitespace. -/
def skipWs (cs : List Char) : List Char :=
  cs.dropWhile (fun c => c == ' ' || c == '\t' || c == '\n' || c == '\r')

/-- Parse an optional sign; `true` means negative. -/
def parseSign : List Char → Bool × List Char
  | '-' :: cs => (true, cs)
  | '+' :: cs => (false, cs)
  | cs => (false, cs)

/-- JS `Number.parseInt(s, 10)`: skip whitespace, optional sign, then the
leading run of decimal digits; `none` models `NaN` (no digits). -/
def parseIntStr (s : String) : Option Int :=
  let cs := skipWs s.toList
  let sc := parseSign cs
  let ds := (takeDigits sc.2).1
  if ds.isEmpty then none
  else some (if sc.1 then -(digitsToNat ds : Int) else (digitsToNat ds : Int))

/-- JS `Number.parseFloat(s)`: optional sign, decimal digits with optional
fraction, optional exponent; `none` models `NaN`.  (The `Infinity` literal is
outside the model.) -/
def parseFloatStr (s : String) : Option ℚ :=
  let cs := skipWs s.toList
  let sc := parseSign cs
  let ip := takeDigits sc.2
  let fp :=
    match ip.2 with
    | '.' :: cs2 => takeDigits cs2
    | _ => ([], ip.2)
  if ip.1.isEmpty && fp.1.isEmpty then none
  else
    let mant : ℚ := (digitsToNat ip.1 : ℚ) + (digitsToNat fp.1 : ℚ) / ((10 : ℚ) ^ fp.1.length)
    let expo : Int :=
      match fp.2 with
      | e :: cs2 =>
        if e == 'e' || e == 'E' then
          let esc := parseSign cs2
          let eds := (takeDigits esc.2).1
          if eds.isEmpty then 0
          else if esc.1 then -(digitsToNat eds : Int) else (digitsToNat eds : Int)
        else 0
      | [] => 0
    let v := mant * (10 : ℚ) ^ expo
    some (if sc.1 then -v else v)

/-- JS `Number.parseInt(String(v), 10)`.  For an integer-modelled number the
round trip through its decimal representation is the identity. -/
def parseIntOf (v : JVal) : Option Int :=
  match v with
  | .jNum n => some n
  | v => parseIntStr (jsToString v)

/-- JS `Number.parseFloat(String(v))`, with the same round-trip convention. -/
def parseFloatOf (v : JVal) : Option ℚ :=
  match v with
  | .jNum n => some (n : ℚ)
  | v => parseFloatStr (jsToString v)

/-- Shape `StoredAnalysisItem` from `src/web/frontend/src/lib/db.ts`
(`id?: number; analysisId?: number; label: string; score: number;
payload?: unknown`). -/
structure StoredAnalysisItem where
  id : Option Nat
  analysisId : Option Nat
  label : String
  score : ℚ
  payload : Option JVal

/-- Shape `StoredAnalysis` from the same module. -/
structure StoredAnalysis where
  id : Option Nat
  snapshotId : Int
  author : String
  title : String
  notes : Option String
  createdAt : Option String
  items : List StoredAnalysisItem

/-- The element shape of `CreateAnalysisInput.items`
(`Omit<StoredAnalysisItem, "id" | "analysisId">`). -/
structure ItemInput where
  label : String
  score : ℚ
  payload : Option JVal

/-- Shape `CreateAnalysisInput` from `analysisStore.ts`.  JS `null` and `undefined`
notes both collapse to `none` (the store applies `?? undefined`). -/
structure CreateAnalysisInput where
  snapshotId : Int
  author : String
  title : String
  notes : Option String
  items : Option (List ItemInput)

/-- State `AnalysisState` from `analysisStore.ts`; the `Map` is an
insertion-ordered association list. -/
structure AnalysisState where
  nextAnalysisId : Nat
  nextItemId : Nat
  analyses : List (Nat × StoredAnalysis)

/-- Function `cloneAnalysis`: spread the record and rebuild each item by spreading.
In this pure value model the payload field (a `JVal` tree) is copied as a
value; the reference-level consequences of the spread being shallow are
modelled separately in `RefModel`. -/
def cloneAnalysis (a : StoredAnalysis) : StoredAnalysis :=
  { a with items := a.items.map (fun it => ⟨it.id, it.analysisId, it.label, it.score, it.payload⟩) }

/-- The seeded analysis built by `createInitialState`; `now` is the oracle
value of `new Date().toISOString()`. -/
def seedAnalysis (now : String) : StoredAnalysis :=
  { id := some 1
    snapshotId := 101
    author := "System"
    title := "Initial deployment validation"
    notes := some "Seeded analysis to verify deployment wiring."
    createdAt := some now
    items := [{ id := some 1
                analysisId := some 1
                label := "deployment-status"
                score := 1
                payload := some (.jObj [("message", .jStr "Vercel preview seeded")]) }] }

/-- Function `createInitialState` from `analysisStore.ts`. -/
def createInitialState (now : String) : AnalysisState :=
  { nextAnalysisId := 2
    nextItemId := 2
    analyses := [(1, seedAnalysis now)] }

/-- JS `Map.set`: replace in place if the key is present, append otherwise. -/
def mapSet (m : List (Nat × StoredAnalysis)) (k : Nat) (v : StoredAnalysis) :
    List (Nat × StoredAnalysis) :=
  if m.any (fun p => p.1 == k) then m.map (fun p => if p.1 == k then (k, v) else p)
  else m ++ [(k, v)]

/-- The item-building loop of `create`: each input item gets the next item id
(post-increment) and the new analysis id as back-reference.  Returns the built
items and the advanced item counter. -/
def buildItems (aid : Nat) (inputs : List ItemInput) (nextId : Nat) :
    List StoredAnalysisItem × Nat :=
  match inputs with
  | [] => ([], nextId)
  | it :: rest =>
    let r := buildItems aid rest (nextId + 1)
    (⟨some nextId, some aid, it.label, it.score, it.payload⟩ :: r.1, r.2)

/-- The placeholder payload object synthesized by `create` when no items were
supplied; `uuid` is the oracle value of `randomUUID()`. -/
def placeholderPayload (uuid : String) : JVal :=
  .jObj [("id", .jStr uuid),
         ("message", .jStr "No analysis items provided; generated placeholder entry.")]

/-- The items of a new analysis together with the advanced item counter:
the built input items, or — when they are empty (none supplied, or an empty
sequence) — exactly one placeholder item with label `"auto-generated"`,
score 0 and the placeholder payload, taking one more item id. -/
def createdItems (id nextItemId : Nat) (inputs : List ItemInput) (uuid : String) :
    List StoredAnalysisItem × Nat :=
  let built := buildItems id inputs nextItemId
  if built.1.isEmpty then
    (([⟨some built.2, some id, "auto-generated", 0, some (placeholderPayload uuid)⟩]
      : List StoredAnalysisItem), built.2 + 1)
  else built

/-- The analysis record `create` stores. -/
def newAnalysis (s : AnalysisState) (input : CreateAnalysisInput)
    (now uuid : String) : StoredAnalysis :=
  { id := some s.nextAnalysisId
    snapshotId := input.snapshotId
    author := input.author
    title := input.title
    notes := input.notes
    createdAt := some now
    items := (createdItems s.nextAnalysisId s.nextItemId (input.items.getD []) uuid).1 }

/-- Method `AnalysisStore.create`, with the wall clock and UUID generator passed as
oracles.  Allocates the next analysis id, builds the items (placeholder rule
included), inserts the record into the map and returns a clone of it
alongside the new store state. -/
def AnalysisStore.create (s : AnalysisState) (input : CreateAnalysisInput)
    (now uuid : String) : StoredAnalysis × AnalysisState :=
  (cloneAnalysis (newAnalysis s input now uuid),
   { nextAnalysisId := s.nextAnalysisId + 1
     nextItemId := (createdItems s.nextAnalysisId s.nextItemId (input.items.getD []) uuid).2
     analyses := mapSet s.analyses s.nextAnalysisId (newAnalysis s input now uuid) })

/-- The sort comparator of `AnalysisStore.list`, returning the JS comparator
value: ties on the (defaulted) `createdAt` key fall back to descending id,
otherwise the later `createdAt` sorts first. -/
def cmpAnalyses (a b : StoredAnalysis) : Int :=
  let aDate := a.createdAt.getD ""
  let bDate := b.createdAt.getD ""
  if aDate = bDate then (b.id.getD 0 : Int) - (a.id.getD 0 : Int)
  else if aDate < bDate then 1 else -1

/-- Relation: `a` may precede `b` under the comparator (comparator value ≤ 0). -/
def listLe (a b : StoredAnalysis) : Prop := cmpAnalyses a b ≤ 0

instance : DecidableRel listLe :=
  fun a b => inferInstanceAs (Decidable (cmpAnalyses a b ≤ 0))

/-- The filter step of `AnalysisStore.list`: `snapshotId ? filter : records`.
JS truthiness makes the filter branch unreachable for `0` (and for an absent
argument). -/
def retainedRecords (s : AnalysisState) (snapshotId : Option Int) :
    List StoredAnalysis :=
  let records := s.analyses.map Prod.snd
  match snapshotId with
  | some n => if n = 0 then records else records.filter (fun a => decide (a.snapshotId = n))
  | none => records

/-- Method `AnalysisStore.list`: filter, sort by the comparator, return clones. -/
def AnalysisStore.list (s : AnalysisState) (snapshotId : Option Int) :
    List StoredAnalysis :=
  (List.insertionSort listLe (retainedRecords s snapshotId)).map cloneAnalysis

/-! ## Transport layer (`src/web/frontend/src/pages/api/admin/analysis.ts`) -/

/-- The candidate step of the items pipeline:
`typeof item === "object" && item !== null ? item : null`. -/
def toCandidate (v : JVal) : Option JVal :=
  if jsTypeofIsObject v && !(v matches .jNull) then some v else none

/-- Coercion `String(item.label ?? "")`. -/
def coerceLabel (item : JVal) : String :=
  jsToString ((nullishGet item "label").getD (.jStr ""))

/-- Score coercion `Number.parseFloat(String(item.score ?? 0)) || 0`: a missing or
unparsable (`NaN`) score yields `0`; `0 || 0` is also `0`, so this is
`getD 0`. -/
def coerceScore (item : JVal) : ℚ :=
  (parseFloatOf ((nullishGet item "score").getD (.jNum 0))).getD 0

/-- The mapping step of the items pipeline. -/
def coerceItem (item : JVal) : ItemInput :=
  ⟨coerceLabel item, coerceScore item, objGet item "payload"⟩

/-- The items pipeline of `normalizeCreatePayload`: map non-objects to null,
drop the nulls, coerce, then drop items with empty labels. -/
def normalizeItems (xs : List JVal) : List ItemInput :=
  (((xs.map toCandidate).filterMap id).map coerceItem).filter
    (fun it => decide (0 < it.label.length))

/-- Modelled from the claim wording, for comparison with `normalizeItems`:
walk the items in order; keep exactly the object entries whose coerced label
is non-empty, carrying the float-parsed (default 0) score and the raw
payload. -/
def specNormalizeItems (xs : List JVal) : List ItemInput :=
  xs.filterMap (fun v =>
    match toCandidate v with
    | none => none
    | some o =>
      let it := coerceItem o
      if it.label = "" then none else some it)

/-- Lookup `data.snapshot_id ?? data.snapshotId ?? ""`. -/
def snapRaw (body : JVal) : JVal :=
  ((nullishGet body "snapshot_id").getD ((nullishGet body "snapshotId").getD (.jStr "")))

/-- Field read `typeof data[k] === "string" ? data[k] : undefined`. -/
def strField (body : JVal) (k : String) : Option String :=
  match objGet body k with
  | some (.jStr s) => some s
  | _ => none

/-- Items read `Array.isArray(data.items) ? data.items : []`. -/
def itemsArr (body : JVal) : List JVal :=
  match objGet body "items" with
  | some (.jArr xs) => xs
  | _ => []

/-- Function `normalizeCreatePayload`: reject non-objects, unparsable snapshot ids and
missing/empty/non-string author or title; otherwise build the core input.
The `!author || !title` check is the test that the (string-typed) field,
defaulted to the empty string, is empty. -/
def normalizeCreatePayload (body : JVal) : Except String CreateAnalysisInput :=
  if !(jsTruthy body) || !(jsTypeofIsObject body) then
    .error "Payload must be an object"
  else
    match parseIntOf (snapRaw body) with
    | none => .error "snapshot_id is required"
    | some snapshotId =>
      if (strField body "author").getD "" = "" ∨ (strField body "title").getD "" = "" then
        .error "author and title are required"
      else
        .ok ⟨snapshotId, (strField body "author").getD "", (strField body "title").getD "",
             strField body "notes", some (normalizeItems (itemsArr body))⟩

/-- The response the POST branch of `handler` sends. -/
structure ApiResponse where
  status : Nat
  record : Option StoredAnalysis
  error : Option String

/-- The POST branch of `handler`: 201 with the created record on success,
400 with the thrown message otherwise (in which case the store is untouched). -/
def handlePost (s : AnalysisState) (body : JVal) (now uuid : String) :
    ApiResponse × AnalysisState :=
  match normalizeCreatePayload body with
  | .error m => (⟨400, none, some m⟩, s)
  | .ok inp =>
    let r := AnalysisStore.create s inp now uuid
    (⟨201, some r.1, none⟩, r.2)

/-- Modelled from the amended claim wording, for comparison with
`handlePost`: the body must be a (truthy) object, the snapshot id — read from
`snapshot_id`, falling back to `snapshotId` when the former is missing or
nullish — must parse as an integer, and author and title must be non-empty
strings (a missing or non-string field defaults to the empty string). -/
def amendedPostOk (body : JVal) : Bool :=
  jsTruthy body && jsTypeofIsObject body && (parseIntOf (snapRaw body)).isSome &&
    ((strField body "author").getD "" != "") && ((strField body "title").getD "" != "")

/-! ## Reference-level model of payload aliasing (`RefModel`)

`cloneAnalysis` spreads the record and each item, so the record and item
objects of a returned analysis are fresh, but the `payload` field is copied
as a JS reference: the payload object itself is shared between store-internal
state and every clone handed out (and likewise shared with the caller's input
objects on `create`).  This section models exactly that: item payloads are
addresses into an explicit heap of payload objects, everything else is a
value (matching the fresh copies made by the spreads). -/

namespace RefModel

/-- A mutable payload object on the heap.  Two fields suffice to exhibit
mutation: the `id` token and the `message` of the placeholder/seed payloads. -/
structure PObj where
  tokenId : Option String
  message : Option String
deriving DecidableEq

/-- Heap of payload objects, addressed by `Nat`. -/
structure RHeap where
  mem : Nat → PObj

/-- Mutate the payload object stored at address `a`. -/
def writeHeap (h : RHeap) (a : Nat) (v : PObj) : RHeap :=
  ⟨fun n => if n = a then v else h.mem n⟩

/-- An item as stored: the payload is a reference (heap address), or absent. -/
structure RItem where
  id : Option Nat
  analysisId : Option Nat
  label : String
  score : ℚ
  payload : Option Nat
deriving DecidableEq

/-- An analysis as stored, with reference-valued item payloads. -/
structure RAnalysis where
  id : Option Nat
  snapshotId : Int
  author : String
  title : String
  notes : Option String
  createdAt : Option String
  items : List RItem
deriving DecidableEq

/-- Store state, as in the value model. -/
structure RState where
  nextAnalysisId : Nat
  nextItemId : Nat
  analyses : List (Nat × RAnalysis)

/-- Function `cloneAnalysis` at the reference level: the record and each item are
rebuilt (fresh objects), and the `payload` field — a reference — is copied
unchanged, so clone and original share payload objects. -/
def cloneAnalysisR (a : RAnalysis) : RAnalysis :=
  { a with items := a.items.map (fun it => ⟨it.id, it.analysisId, it.label, it.score, it.payload⟩) }

/-- Create input at the reference level: item payloads are references into
the caller's heap. -/
structure RItemInput where
  label : String
  score : ℚ
  payload : Option Nat

/-- Create input record. -/
structure RInput where
  snapshotId : Int
  author : String
  title : String
  notes : Option String
  items : Option (List RItemInput)

/-- The seeded state; the seed payload object lives at address 0. -/
def createInitialStateR (now : String) : RState :=
  { nextAnalysisId := 2
    nextItemId := 2
    analyses := [(1, { id := some 1
                       snapshotId := 101
                       author := "System"
                       title := "Initial deployment validation"
                       notes := some "Seeded analysis to verify deployment wiring."
                       createdAt := some now
                       items := [{ id := some 1
                                   analysisId := some 1
                                   label := "deployment-status"
                                   score := 1
                                   payload := some 0 }] })] }

/-- Method `Map.set` as in the value model. -/
def mapSetR (m : List (Nat × RAnalysis)) (k : Nat) (v : RAnalysis) :
    List (Nat × RAnalysis) :=
  if m.any (fun p => p.1 == k) then m.map (fun p => if p.1 == k then (k, v) else p)
  else m ++ [(k, v)]

/-- The item-building loop: input payload references are copied into the
stored items (shared with the caller). -/
def buildItemsR (aid : Nat) (inputs : List RItemInput) (nextId : Nat) :
    List RItem × Nat :=
  match inputs with
  | [] => ([], nextId)
  | it :: rest =>
    let r := buildItemsR aid rest (nextId + 1)
    (⟨some nextId, some aid, it.label, it.score, it.payload⟩ :: r.1, r.2)

/-- Method `create` at the reference level.  A synthesized placeholder payload is a
fresh object: it is allocated at the oracle address `pAddr` by writing the
heap there. -/
def createR (s : RState) (h : RHeap) (input : RInput) (now uuid : String)
    (pAddr : Nat) : RAnalysis × RState × RHeap :=
  let id := s.nextAnalysisId
  let built := buildItemsR id (input.items.getD []) s.nextItemId
  let itemsCtrHeap :=
    if built.1.isEmpty then
      (([⟨some built.2, some id, "auto-generated", 0, some pAddr⟩] : List RItem),
       built.2 + 1,
       writeHeap h pAddr ⟨some uuid, some "No analysis items provided; generated placeholder entry."⟩)
    else (built.1, built.2, h)
  let analysis : RAnalysis :=
    { id := some id
      snapshotId := input.snapshotId
      author := input.author
      title := input.title
      notes := input.notes
      createdAt := some now
      items := itemsCtrHeap.1 }
  (cloneAnalysisR analysis,
   { nextAnalysisId := id + 1
     nextItemId := itemsCtrHeap.2.1
     analyses := mapSetR s.analyses id analysis },
   itemsCtrHeap.2.2)

/-- The sort comparator, as in the value model. -/
def cmpR (a b : RAnalysis) : Int :=
  let aDate := a.createdAt.getD ""
  let bDate := b.createdAt.getD ""
  if aDate = bDate then (b.id.getD 0 : Int) - (a.id.getD 0 : Int)
  else if aDate < bDate then 1 else -1

/-- Comparator value ≤ 0. -/
def listLeR (a b : RAnalysis) : Prop := cmpR a b ≤ 0

instance : DecidableRel listLeR :=
  fun a b => inferInstanceAs (Decidable (cmpR a b ≤ 0))

/-- Method `list` at the reference level: the returned clones still carry the
store's payload references. -/
def listR (s : RState) (snapshotId : Option Int) : List RAnalysis :=
  let records := s.analyses.map Prod.snd
  let filtered :=
    match snapshotId with
    | some n => if n = 0 then records else records.filter (fun a => decide (a.snapshotId = n))
    | none => records
  (List.insertionSort listLeR filtered).map cloneAnalysisR

/-- An item with its payload reference dereferenced: what a caller can
observe of a listed record. -/
structure ObsItem where
  id : Option Nat
  analysisId : Option Nat
  label : String
  score : ℚ
  payloadVal : Option PObj
deriving DecidableEq

/-- An analysis with dereferenced payloads. -/
structure ObsAnalysis where
  id : Option Nat
  snapshotId : Int
  author : String
  title : String
  notes : Option String
  createdAt : Option String
  items : List ObsItem
deriving DecidableEq

/-- Dereference every payload of an analysis through the heap. -/
def derefAnalysis (h : RHeap) (a : RAnalysis) : ObsAnalysis :=
  ⟨a.id, a.snapshotId, a.author, a.title, a.notes, a.createdAt,
   a.items.map (fun it => ⟨it.id, it.analysisId, it.label, it.score, (it.payload).map h.mem⟩)⟩

/-- The observable output of `list`: records with payloads dereferenced. -/
def listObs (s : RState) (h : RHeap) (snapshotId : Option Int) : List ObsAnalysis :=
  (listR s snapshotId).map (derefAnalysis h)

/-- All payload addresses reachable from store-internal state. -/
def payloadAddrs (s : RState) : List Nat :=
  s.analyses.flatMap (fun p => p.2.items.filterMap (fun it => it.payload))

end RefModel

/-! ## Reachable store states and invariants -/

/-- Store states reachable from a fresh store by any sequence of `create`
calls (with arbitrary oracle values); `list` does not change state. -/
inductive Reach : AnalysisState → Prop where
  | init (now : String) : Reach (createInitialState now)
  | step (s : AnalysisState) (input : CreateAnalysisInput) (now uuid : String)
      (h : Reach s) : Reach (AnalysisStore.create s input now uuid).2

/-- The analysis ids assigned in a state (the map keys). -/
def analysisIds (s : AnalysisState) : List Nat := s.analyses.map Prod.fst

/-- All item ids assigned in a state. -/
def itemIds (s : AnalysisState) : List Nat :=
  s.analyses.flatMap (fun p => p.2.items.map (fun it => it.id.getD 0))

/-- Counter/id bookkeeping invariant maintained by the store. -/
def StoreInv (s : AnalysisState) : Prop :=
  2 ≤ s.nextAnalysisId ∧ 2 ≤ s.nextItemId ∧
  (∀ k ∈ analysisIds s, k < s.nextAnalysisId) ∧ (analysisIds s).Nodup ∧
  (∀ i ∈ itemIds s, i < s.nextItemId) ∧ (itemIds s).Nodup

/-! ## Helper lemmas -/

theorem cloneAnalysis_eq (a : StoredAnalysis) : cloneAnalysis a = a := by
  unfold cloneAnalysis
  rw [show (fun (it : StoredAnalysisItem) =>
        (⟨it.id, it.analysisId, it.label, it.score, it.payload⟩ : StoredAnalysisItem)) = id
      from rfl,
    List.map_id]

theorem map_cloneAnalysis_id (l : List StoredAnalysis) : l.map cloneAnalysis = l := by
  rw [show cloneAnalysis = id from funext cloneAnalysis_eq, List.map_id]

theorem list_perm_retained (s : AnalysisState) (q : Option Int) :
    (AnalysisStore.list s q).Perm (retainedRecords s q) := by
  unfold AnalysisStore.list
  rw [map_cloneAnalysis_id]
  exact List.perm_insertionSort _ _

theorem listLe_iff (a b : StoredAnalysis) :
    listLe a b ↔ (b.createdAt.getD "" < a.createdAt.getD "" ∨
      (a.createdAt.getD "" = b.createdAt.getD "" ∧ b.id.getD 0 ≤ a.id.getD 0)) := by
  unfold listLe cmpAnalyses
  by_cases h : a.createdAt.getD "" = b.createdAt.getD ""
  · rw [if_pos h, h]
    simp only [lt_self_iff_false, false_or, true_and]
    omega
  · rw [if_neg h]
    by_cases h2 : a.createdAt.getD "" < b.createdAt.getD ""
    · rw [if_pos h2]
      have h3 : ¬ b.createdAt.getD "" < a.createdAt.getD "" := lt_asymm h2
      simp [h, h3]
    · rw [if_neg h2]
      have h3 : b.createdAt.getD "" < a.createdAt.getD "" :=
        lt_of_le_of_ne (le_of_not_lt h2) (fun e => h e.symm)
      simp [h3]

instance : IsTotal StoredAnalysis listLe :=
  ⟨fun a b => by
    rw [listLe_iff, listLe_iff]
    rcases lt_trichotomy (a.createdAt.getD "") (b.createdAt.getD "") with h | h | h
    · exact Or.inr (Or.inl h)
    · rcases Nat.le_total (a.id.getD 0) (b.id.getD 0) with hi | hi
      · exact Or.inr (Or.inr ⟨h.symm, hi⟩)
      · exact Or.inl (Or.inr ⟨h, hi⟩)
    · exact Or.inl (Or.inl h)⟩

instance : IsTrans StoredAnalysis listLe :=
  ⟨fun a b c hab hbc => by
    rw [listLe_iff] at hab hbc ⊢
    rcases hab with h1 | ⟨e1, i1⟩ <;> rcases hbc with h2 | ⟨e2, i2⟩
    · exact Or.inl (lt_trans h2 h1)
    · exact Or.inl (e2 ▸ h1)
    · exact Or.inl (lt_of_lt_of_eq h2 e1.symm)
    · exact Or.inr ⟨e1.trans e2, le_trans i2 i1⟩⟩

theorem list_sorted (s : AnalysisState) (q : Option Int) :
    (AnalysisStore.list s q).Sorted listLe := by
  unfold AnalysisStore.list
  rw [map_cloneAnalysis_id]
  exact List.sorted_insertionSort _ _

theorem mem_mapSet_self (m : List (Nat × StoredAnalysis)) (k : Nat) (v : StoredAnalysis) :
    (k, v) ∈ mapSet m k v := by
  unfold mapSet
  by_cases h : m.any (fun p => p.1 == k)
  · rw [if_pos h]
    rcases List.any_eq_true.mp h with ⟨p, hp, hpk⟩
    rw [List.mem_map]
    refine ⟨p, hp, ?_⟩
    rw [beq_iff_eq] at hpk
    simp [hpk]
  · rw [if_neg h]
    exact List.mem_append_right _ (List.mem_singleton.mpr rfl)

theorem mem_mapSet (m : List (Nat × StoredAnalysis)) (k : Nat) (v : StoredAnalysis)
    (p : Nat × StoredAnalysis) (hp : p ∈ mapSet m k v) : p ∈ m ∨ p = (k, v) := by
  unfold mapSet at hp
  by_cases h : m.any (fun p => p.1 == k)
  · rw [if_pos h] at hp
    rcases List.mem_map.mp hp with ⟨q, hq, hqe⟩
    by_cases hk : q.1 == k
    · rw [if_pos hk] at hqe
      exact Or.inr hqe.symm
    · rw [if_neg hk] at hqe
      exact Or.inl (hqe ▸ hq)
  · rw [if_neg h] at hp
    rcases List.mem_append.mp hp with h1 | h1
    · exact Or.inl h1
    · exact Or.inr (List.mem_singleton.mp h1)

theorem mapSet_fresh (m : List (Nat × StoredAnalysis)) (k : Nat) (v : StoredAnalysis)
    (h : ∀ p ∈ m, p.1 ≠ k) : mapSet m k v = m ++ [(k, v)] := by
  unfold mapSet
  rw [if_neg]
  rw [List.any_eq_true]
  rintro ⟨p, hp, hpk⟩
  exact h p hp (beq_iff_eq.mp hpk)

theorem buildItems_snd (aid : Nat) (l : List ItemInput) (n : Nat) :
    (buildItems aid l n).2 = n + l.length := by
  induction l generalizing n with
  | nil => simp [buildItems]
  | cons it rest ih => simp [buildItems, ih]; omega

theorem buildItems_length (aid : Nat) (l : List ItemInput) (n : Nat) :
    (buildItems aid l n).1.length = l.length := by
  induction l generalizing n with
  | nil => simp [buildItems]
  | cons it rest ih => simp [buildItems, ih]

theorem buildItems_fields (aid : Nat) (l : List ItemInput) (n : Nat) :
    (buildItems aid l n).1.map (fun j => (j.label, j.score, j.payload))
      = l.map (fun j => (j.label, j.score, j.payload)) := by
  induction l generalizing n with
  | nil => simp [buildItems]
  | cons it rest ih => simp [buildItems, ih]

theorem buildItems_analysisId (aid : Nat) (l : List ItemInput) (n : Nat)
    (it : StoredAnalysisItem) (h : it ∈ (buildItems aid l n).1) :
    it.analysisId = some aid := by
  induction l generalizing n with
  | nil => simp [buildItems] at h
  | cons x rest ih =>
    simp only [buildItems] at h
    rcases List.mem_cons.mp h with h1 | h1
    · rw [h1]
    · exact ih (n + 1) h1

theorem buildItems_id_bounds (aid : Nat) (l : List ItemInput) (n : Nat)
    (it : StoredAnalysisItem) (h : it ∈ (buildItems aid l n).1) :
    n ≤ it.id.getD 0 ∧ it.id.getD 0 < n + l.length := by
  induction l generalizing n with
  | nil => simp [buildItems] at h
  | cons x rest ih =>
    simp only [buildItems] at h
    rcases List.mem_cons.mp h with h1 | h1
    · rw [h1]; simp
    · have := ih (n + 1) h1
      simp only [List.length_cons]
      omega

theorem buildItems_ids_nodup (aid : Nat) (l : List ItemInput) (n : Nat) :
    ((buildItems aid l n).1.map (fun it => it.id.getD 0)).Nodup := by
  induction l generalizing n with
  | nil => simp [buildItems]
  | cons x rest ih =>
    simp only [buildItems, List.map_cons, List.nodup_cons]
    refine ⟨?_, ih (n + 1)⟩
    rw [List.mem_map]
    rintro ⟨it, hit, hide⟩
    have := buildItems_id_bounds aid rest (n + 1) it hit
    simp at hide
    omega

theorem createdItems_ne_nil (id nid : Nat) (l : List ItemInput) (u : String) :
    (createdItems id nid l u).1 ≠ [] := by
  unfold createdItems
  by_cases hb : (buildItems id l nid).1.isEmpty
  · rw [if_pos hb]; simp
  · rw [if_neg hb]
    intro he
    exact hb (by rw [he]; rfl)

theorem createdItems_analysisId (id nid : Nat) (l : List ItemInput) (u : String)
    (it : StoredAnalysisItem) (h : it ∈ (createdItems id nid l u).1) :
    it.analysisId = some id := by
  unfold createdItems at h
  by_cases hb : (buildItems id l nid).1.isEmpty
  · rw [if_pos hb] at h
    rw [List.mem_singleton.mp h]
  · rw [if_neg hb] at h
    exact buildItems_analysisId id l nid it h

theorem createdItems_id_bounds (id nid : Nat) (l : List ItemInput) (u : String)
    (it : StoredAnalysisItem) (h : it ∈ (createdItems id nid l u).1) :
    nid ≤ it.id.getD 0 ∧ it.id.getD 0 < (createdItems id nid l u).2 := by
  unfold createdItems at h ⊢
  by_cases hb : (buildItems id l nid).1.isEmpty
  · rw [if_pos hb] at h ⊢
    rw [List.mem_singleton.mp h]
    have := buildItems_snd id l nid
    simp
    omega
  · rw [if_neg hb] at h ⊢
    have h1 := buildItems_id_bounds id l nid it h
    have h2 := buildItems_snd id l nid
    omega

theorem createdItems_snd_gt (id nid : Nat) (l : List ItemInput) (u : String) :
    nid < (createdItems id nid l u).2 := by
  unfold createdItems
  by_cases hb : (buildItems id l nid).1.isEmpty
  · rw [if_pos hb]
    have := buildItems_snd id l nid
    simp
    omega
  · rw [if_neg hb]
    have h1 := buildItems_snd id l nid
    have h2 : (buildItems id l nid).1.length = l.length := buildItems_length id l nid
    have h3 : (buildItems id l nid).1 ≠ [] := by
      intro he
      exact hb (by rw [he]; rfl)
    have h4 : 0 < l.length := by
      rcases Nat.eq_zero_or_pos l.length with h | h
      · exact absurd (List.eq_nil_of_length_eq_zero (h2.trans h)) h3
      · exact h
    omega

theorem createdItems_ids_nodup (id nid : Nat) (l : List ItemInput) (u : String) :
    ((createdItems id nid l u).1.map (fun it => it.id.getD 0)).Nodup := by
  unfold createdItems
  by_cases hb : (buildItems id l nid).1.isEmpty
  · rw [if_pos hb]; simp
  · rw [if_neg hb]
    exact buildItems_ids_nodup id l nid

theorem create_fst (s : AnalysisState) (inp : CreateAnalysisInput) (now uuid : String) :
    (AnalysisStore.create s inp now uuid).1 = newAnalysis s inp now uuid :=
  cloneAnalysis_eq _

theorem create_analyses_fresh (s : AnalysisState) (inp : CreateAnalysisInput)
    (now uuid : String) (hfresh : ∀ p ∈ s.analyses, p.1 ≠ s.nextAnalysisId) :
    (AnalysisStore.create s inp now uuid).2.analyses
      = s.analyses ++ [(s.nextAnalysisId, newAnalysis s inp now uuid)] := by
  unfold AnalysisStore.create
  exact mapSet_fresh _ _ _ hfresh

theorem reach_storeInv (s : AnalysisState) (hs : Reach s) : StoreInv s := by
  induction hs with
  | init now =>
    refine ⟨le_refl 2, le_refl 2, ?_, ?_, ?_, ?_⟩ <;>
      simp [createInitialState, analysisIds, itemIds, seedAnalysis]
  | step s inp now uuid h ih =>
    obtain ⟨ha2, hi2, hka, hna, hki, hni⟩ := ih
    have hfresh : ∀ p ∈ s.analyses, p.1 ≠ s.nextAnalysisId := by
      intro p hp
      exact Nat.ne_of_lt (hka p.1 (List.mem_map.mpr ⟨p, hp, rfl⟩))
    have heq := create_analyses_fresh s inp now uuid hfresh
    have hids : analysisIds (AnalysisStore.create s inp now uuid).2
        = analysisIds s ++ [s.nextAnalysisId] := by
      unfold analysisIds
      rw [heq, List.map_append]
      rfl
    have hitems : itemIds (AnalysisStore.create s inp now uuid).2
        = itemIds s ++ (createdItems s.nextAnalysisId s.nextItemId (inp.items.getD []) uuid).1.map
            (fun it => it.id.getD 0) := by
      unfold itemIds
      rw [heq, List.flatMap_append]
      simp [newAnalysis]
    have hctr : (AnalysisStore.create s inp now uuid).2.nextAnalysisId
        = s.nextAnalysisId + 1 := rfl
    have hictr : (AnalysisStore.create s inp now uuid).2.nextItemId
        = (createdItems s.nextAnalysisId s.nextItemId (inp.items.getD []) uuid).2 := rfl
    have hgt := createdItems_snd_gt s.nextAnalysisId s.nextItemId (inp.items.getD []) uuid
    refine ⟨by omega, by omega, ?_, ?_, ?_, ?_⟩
    · intro k hk
      rw [hids] at hk
      rw [hctr]
      rcases List.mem_append.mp hk with h1 | h1
      · have := hka k h1
        omega
      · rw [List.mem_singleton.mp h1]
        omega
    · rw [hids, List.nodup_append]
      refine ⟨hna, List.nodup_singleton _, ?_⟩
      intro k h1 h2
      rw [List.mem_singleton.mp h2] at h1
      exact absurd (hka _ h1) (lt_irrefl _)
    · intro i hi
      rw [hitems] at hi
      rw [hictr]
      rcases List.mem_append.mp hi with h1 | h1
      · have := hki i h1
        omega
      · rcases List.mem_map.mp h1 with ⟨it, hit, hide⟩
        have := createdItems_id_bounds s.nextAnalysisId s.nextItemId (inp.items.getD []) uuid it hit
        omega
    · rw [hitems, List.nodup_append]
      refine ⟨hni, createdItems_ids_nodup _ _ _ _, ?_⟩
      intro i h1 h2
      rcases List.mem_map.mp h2 with ⟨it, hit, hide⟩
      have hb := createdItems_id_bounds s.nextAnalysisId s.nextItemId (inp.items.getD []) uuid it hit
      have := hki i h1
      omega

theorem reach_items_inv (s : AnalysisState) (hs : Reach s)
    (p : Nat × StoredAnalysis) (hp : p ∈ s.analyses) :
    p.2.items ≠ [] ∧ ∀ it ∈ p.2.items, it.analysisId = p.2.id := by
  induction hs with
  | init now =>
    rw [List.mem_singleton.mp hp]
    refine ⟨by simp [seedAnalysis], ?_⟩
    intro it hit
    rw [List.mem_singleton.mp hit]
    rfl
  | step s inp now uuid h ih =>
    rcases mem_mapSet s.analyses s.nextAnalysisId (newAnalysis s inp now uuid) p hp with h1 | h1
    · exact ih h1
    · rw [h1]
      refine ⟨createdItems_ne_nil _ _ _ _, ?_⟩
      intro it hit
      exact createdItems_analysisId _ _ _ _ it hit

/-! ## Transport-layer lemmas -/

theorem string_len_pos_iff (s : String) : 0 < s.length ↔ s ≠ "" := by
  cases s with
  | mk l =>
    cases l with
    | nil =>
      constructor
      · intro h
        exact absurd h (by decide)
      · intro h
        exact absurd (rfl : ({ data := [] } : String) = "") h
    | cons c cs =>
      constructor
      · intro h he
        have h2 := congrArg String.data he
        simp at h2
      · intro h
        show 0 < (c :: cs).length
        simp

theorem amendedPostOk_iff (body : JVal) :
    amendedPostOk body = true ↔ ∃ inp, normalizeCreatePayload body = Except.ok inp := by
  unfold amendedPostOk normalizeCreatePayload
  by_cases h1 : (!(jsTruthy body) || !(jsTypeofIsObject body)) = true
  · rw [if_pos h1]
    simp only [Bool.or_eq_true, Bool.not_eq_true'] at h1
    rcases h1 with h1 | h1 <;> simp [h1]
  · rw [if_neg h1]
    simp only [Bool.or_eq_true, Bool.not_eq_true'] at h1
    push_neg at h1
    have ht : jsTruthy body = true := Bool.of_not_eq_false h1.1
    have ho : jsTypeofIsObject body = true := Bool.of_not_eq_false h1.2
    cases hp : parseIntOf (snapRaw body) with
    | none => simp [ht, ho, hp]
    | some n =>
      dsimp only
      by_cases h3 : (strField body "author").getD "" = "" ∨ (strField body "title").getD "" = ""
      · rw [if_pos h3]
        rcases h3 with h3 | h3 <;> simp [ht, ho, hp, h3]
      · rw [if_neg h3]
        push_neg at h3
        simp [ht, ho, hp, h3.1, h3.2]

theorem normalize_error_ne (body : JVal) (m : String)
    (h : normalizeCreatePayload body = Except.error m) : m ≠ "" := by
  unfold normalizeCreatePayload at h
  by_cases h1 : (!(jsTruthy body) || !(jsTypeofIsObject body)) = true
  · rw [if_pos h1] at h
    cases h
    decide
  · rw [if_neg h1] at h
    cases hp : parseIntOf (snapRaw body) with
    | none =>
      rw [hp] at h
      cases h
      decide
    | some n =>
      rw [hp] at h
      dsimp only at h
      by_cases h3 : (strField body "author").getD "" = "" ∨ (strField body "title").getD "" = ""
      · rw [if_pos h3] at h
        cases h
        decide
      · rw [if_neg h3] at h
        exact Except.noConfusion h

/-! ## RefModel lemmas -/

namespace RefModel

theorem cloneAnalysisR_eq (a : RAnalysis) : cloneAnalysisR a = a := by
  unfold cloneAnalysisR
  rw [show (fun (it : RItem) =>
        (⟨it.id, it.analysisId, it.label, it.score, it.payload⟩ : RItem)) = id
      from rfl,
    List.map_id]

theorem map_cloneAnalysisR_id (l : List RAnalysis) : l.map cloneAnalysisR = l := by
  rw [show cloneAnalysisR = id from funext cloneAnalysisR_eq, List.map_id]

theorem listR_mem_records (s : RState) (q : Option Int) (b : RAnalysis)
    (hb : b ∈ listR s q) : b ∈ s.analyses.map Prod.snd := by
  unfold listR at hb
  rw [map_cloneAnalysisR_id] at hb
  have hb2 := (List.perm_insertionSort listLeR _).mem_iff.mp hb
  rcases q with _ | n
  · exact hb2
  · dsimp only at hb2
    by_cases hn : n = 0
    · rw [if_pos hn] at hb2
      exact hb2
    · rw [if_neg hn] at hb2
      exact (List.mem_filter.mp hb2).1

theorem mem_payloadAddrs (s : RState) (b : RAnalysis) (it : RItem) (addr : Nat)
    (hb : b ∈ s.analyses.map Prod.snd) (hit : it ∈ b.items)
    (hpay : it.payload = some addr) : addr ∈ payloadAddrs s := by
  unfold payloadAddrs
  rw [List.mem_flatMap]
  rcases List.mem_map.mp hb with ⟨p, hp, hpe⟩
  refine ⟨p, hp, ?_⟩
  rw [List.mem_filterMap]
  exact ⟨it, hpe ▸ hit, hpay⟩

theorem derefAnalysis_write_eq (s : RState) (h : RHeap) (a : Nat) (v : PObj)
    (b : RAnalysis) (hb : b ∈ s.analyses.map Prod.snd) (ha : a ∉ payloadAddrs s) :
    derefAnalysis (writeHeap h a v) b = derefAnalysis h b := by
  unfold derefAnalysis
  refine congrArg (fun l =>
    ObsAnalysis.mk b.id b.snapshotId b.author b.title b.notes b.createdAt l) ?_
  apply List.map_congr_left
  intro it hit
  cases hpay : it.payload with
  | none => rfl
  | some addr =>
    have haddr : addr ≠ a := fun he => ha (he ▸ mem_payloadAddrs s b it addr hb hit hpay)
    show ObsItem.mk _ _ _ _ ((some addr).map (writeHeap h a v).mem)
        = ObsItem.mk _ _ _ _ ((some addr).map h.mem)
    show ObsItem.mk _ _ _ _ (some (if addr = a then v else h.mem addr))
        = ObsItem.mk _ _ _ _ (some (h.mem addr))
    rw [if_neg haddr]

end RefModel

/-! ## Concrete scenario for the isolation counterexample -/

/-- Fresh store (reference level); seed payload object at address 0. -/
def c2State0 : RefModel.RState := RefModel.createInitialStateR "t0"

/-- Initial heap: the seed payload at 0, the caller's payload object at 5. -/
def c2Heap0 : RefModel.RHeap :=
  ⟨fun n => if n = 0 then ⟨none, some "Vercel preview seeded"⟩
    else if n = 5 then ⟨none, some "original"⟩ else ⟨none, none⟩⟩

/-- A create input with one item whose payload is the object at address 5. -/
def c2Input : RefModel.RInput := ⟨42, "QA", "Review", none, some [⟨"leaf", 1, some 5⟩]⟩

/-- The result of `create` on the fresh store with that input (same wall
clock reading as the seed, so the sort tie-breaks on ids). -/
def c2Created : RefModel.RAnalysis × RefModel.RState × RefModel.RHeap :=
  RefModel.createR c2State0 c2Heap0 c2Input "t0" "u" 99

/-- The heap after mutating the payload object the returned record points to. -/
def c2Mutated : RefModel.RHeap := RefModel.writeHeap c2Created.2.2 5 ⟨none, some "mutated"⟩

/-! ## Claim theorems -/

/-- C1 (counterexample): the claim fails at snapshot id 0: on a fresh store,
`list(0)` returns the seeded record, whose `snapshotId` is 101, not 0 — so
`list(0)` does not return exactly the records with `snapshotId = 0`. -/
theorem c1_counterexample :
    AnalysisStore.list (createInitialState "2024-05-01T00:00:00.000Z") (some 0)
      = [seedAnalysis "2024-05-01T00:00:00.000Z"]
    ∧ (seedAnalysis "2024-05-01T00:00:00.000Z").snapshotId = 101
    ∧ (101 : Int) ≠ 0 :=
  ⟨rfl, rfl, by decide⟩

/-- C1 (amended): for every NON-ZERO snapshot id `n` and every store state,
`list(n)` returns only records with `snapshotId = n` and contains every
stored record whose `snapshotId` is `n`. -/
theorem c1_filter_nonzero (s : AnalysisState) (n : Int) (a : StoredAnalysis)
    (p : Nat × StoredAnalysis) (hn : n ≠ 0) (ha : a ∈ AnalysisStore.list s (some n))
    (hp : p ∈ s.analyses) (hps : p.2.snapshotId = n) :
    a.snapshotId = n ∧ p.2 ∈ AnalysisStore.list s (some n) := by
  have hperm := list_perm_retained s (some n)
  have hret : retainedRecords s (some n)
      = (s.analyses.map Prod.snd).filter (fun x => decide (x.snapshotId = n)) := by
    unfold retainedRecords
    dsimp only
    rw [if_neg hn]
  constructor
  · have h1 := hperm.mem_iff.mp ha
    rw [hret, List.mem_filter] at h1
    exact of_decide_eq_true h1.2
  · rw [hperm.mem_iff, hret, List.mem_filter]
    exact ⟨List.mem_map.mpr ⟨p, hp, rfl⟩, decide_eq_true hps⟩

/-- Witness for C1's amended theorem at the fresh store and snapshot id 101. -/
theorem c1_filter_nonzero_witness :
    (seedAnalysis "w").snapshotId = 101
    ∧ (seedAnalysis "w") ∈ AnalysisStore.list (createInitialState "w") (some 101) :=
  c1_filter_nonzero (createInitialState "w") 101 (seedAnalysis "w") (1, seedAnalysis "w")
    (by decide)
    (show seedAnalysis "w" ∈ [seedAnalysis "w"] from List.Mem.head _)
    (show (1, seedAnalysis "w") ∈ [(1, seedAnalysis "w")] from List.Mem.head _)
    rfl

/-- C2 (counterexample): `cloneAnalysis` spreads items shallowly, so the
payload object of a record returned by `create` is shared with store state:
mutating it (here, the payload at heap address 5 that the returned record
points to) changes what a subsequent `list()` observes. -/
theorem c2_counterexample :
    c2Created.1.items.map (fun it => it.payload) = [some 5]
    ∧ RefModel.listObs c2Created.2.1 c2Mutated none
        ≠ RefModel.listObs c2Created.2.1 c2Created.2.2 none :=
  ⟨rfl, by decide⟩

/-- C2 (amended): records returned by `list()`/`create()` are fresh copies at
the record and item level, but item payloads are shared by reference; hence
mutating any payload object NOT reachable from store state never changes what
`list()` returns (formally: a heap write at an address outside the store's
payload addresses leaves the observable `list` output unchanged). -/
theorem c2_frame (s : RefModel.RState) (h : RefModel.RHeap) (a : Nat)
    (v : RefModel.PObj) (q : Option Int) (ha : a ∉ RefModel.payloadAddrs s) :
    RefModel.listObs s (RefModel.writeHeap h a v) q = RefModel.listObs s h q := by
  unfold RefModel.listObs
  apply List.map_congr_left
  intro b hb
  exact RefModel.derefAnalysis_write_eq s h a v b (RefModel.listR_mem_records s q b hb) ha

/-- Witness for C2's amended (frame) theorem at a concrete state and address. -/
theorem c2_frame_witness :
    (7 ∉ RefModel.payloadAddrs (RefModel.createInitialStateR "t"))
    ∧ RefModel.listObs (RefModel.createInitialStateR "t")
        (RefModel.writeHeap ⟨fun _ => ⟨none, none⟩⟩ 7 ⟨none, some "m"⟩) none
      = RefModel.listObs (RefModel.createInitialStateR "t") ⟨fun _ => ⟨none, none⟩⟩ none :=
  ⟨by decide,
   c2_frame (RefModel.createInitialStateR "t") ⟨fun _ => ⟨none, none⟩⟩ 7 ⟨none, some "m"⟩
     none (by decide)⟩

/-- C3: for every store state and filter, `list` returns a permutation of the
retained records that is pairwise ordered by `createdAt` descending
(lexicographic string comparison on the defaulted timestamp), ties broken by
id descending. -/
theorem c3_list_ordering (s : AnalysisState) (q : Option Int) :
    (AnalysisStore.list s q).Perm (retainedRecords s q)
    ∧ (AnalysisStore.list s q).Pairwise (fun a b =>
        b.createdAt.getD "" < a.createdAt.getD ""
        ∨ (a.createdAt.getD "" = b.createdAt.getD "" ∧ b.id.getD 0 ≤ a.id.getD 0)) :=
  ⟨list_perm_retained s q,
   List.Pairwise.imp (fun hab => (listLe_iff _ _).mp hab) (list_sorted s q)⟩

/-- C4: counters start at 2; in any reachable state, `create` returns the
current analysis counter as id, which is strictly greater than every
previously assigned analysis id; every new item id is strictly greater than
every previously assigned item id; and ids (analysis and item) in the
post-`create` state are never reused (pairwise distinct). -/
theorem c4_id_monotonicity (t : String) (s : AnalysisState) (inp : CreateAnalysisInput)
    (now uuid : String) (k i : Nat) (it : StoredAnalysisItem) (hs : Reach s)
    (hk : k ∈ analysisIds s) (hi : i ∈ itemIds s)
    (hit : it ∈ (AnalysisStore.create s inp now uuid).1.items) :
    (createInitialState t).nextAnalysisId = 2 ∧ (createInitialState t).nextItemId = 2
    ∧ (AnalysisStore.create s inp now uuid).1.id = some s.nextAnalysisId
    ∧ k < s.nextAnalysisId
    ∧ i < it.id.getD 0
    ∧ (analysisIds (AnalysisStore.create s inp now uuid).2).Nodup
    ∧ (itemIds (AnalysisStore.create s inp now uuid).2).Nodup := by
  obtain ⟨ha2, hi2, hka, hna, hki, hni⟩ := reach_storeInv s hs
  obtain ⟨_, _, _, hna2, _, hni2⟩ := reach_storeInv _ (Reach.step s inp now uuid hs)
  refine ⟨rfl, rfl, by rw [create_fst]; rfl, hka k hk, ?_, hna2, hni2⟩
  rw [create_fst] at hit
  have hit2 : it ∈ (createdItems s.nextAnalysisId s.nextItemId (inp.items.getD []) uuid).1 := hit
  have hb := createdItems_id_bounds s.nextAnalysisId s.nextItemId (inp.items.getD []) uuid it hit2
  have hlt := hki i hi
  omega

/-- Witness for C4 at the fresh store and an item-less create input. -/
theorem c4_id_monotonicity_witness :
    (createInitialState "x").nextAnalysisId = 2 ∧ (createInitialState "x").nextItemId = 2
    ∧ (AnalysisStore.create (createInitialState "y") ⟨5, "a", "b", none, none⟩ "t" "u").1.id
        = some (createInitialState "y").nextAnalysisId
    ∧ 1 < (createInitialState "y").nextAnalysisId
    ∧ 1 < (StoredAnalysisItem.mk (some 2) (some 2) "auto-generated" 0
            (some (placeholderPayload "u"))).id.getD 0
    ∧ (analysisIds (AnalysisStore.create (createInitialState "y")
        ⟨5, "a", "b", none, none⟩ "t" "u").2).Nodup
    ∧ (itemIds (AnalysisStore.create (createInitialState "y")
        ⟨5, "a", "b", none, none⟩ "t" "u").2).Nodup :=
  c4_id_monotonicity "x" (createInitialState "y") ⟨5, "a", "b", none, none⟩ "t" "u" 1 1
    (StoredAnalysisItem.mk (some 2) (some 2) "auto-generated" 0 (some (placeholderPayload "u")))
    (Reach.init "y") (by decide) (by decide)
    (show _ ∈ [StoredAnalysisItem.mk (some 2) (some 2) "auto-generated" 0
        (some (placeholderPayload "u"))] from List.Mem.head _)

/-- C5: when the create input's items are absent or empty, the returned and
stored record has exactly one placeholder item (label `"auto-generated"`,
score 0, `analysisId` the new analysis id, the next item id, payload carrying
the fresh token and the explanatory message); when items are supplied, no
placeholder is added and input order (with labels, scores, payloads) is
preserved. -/
theorem c5_placeholder_rule (s : AnalysisState) (inp : CreateAnalysisInput)
    (now uuid : String) :
    match inp.items with
    | some (x :: xs) =>
        (AnalysisStore.create s inp now uuid).1.items.map (fun j => (j.label, j.score, j.payload))
          = (x :: xs).map (fun j => (j.label, j.score, j.payload))
        ∧ (AnalysisStore.create s inp now uuid).1.items.length = (x :: xs).length
    | _ =>
        (AnalysisStore.create s inp now uuid).1.items
          = [⟨some s.nextItemId, some s.nextAnalysisId, "auto-generated", 0,
              some (placeholderPayload uuid)⟩]
        ∧ (s.nextAnalysisId,
            ({ id := some s.nextAnalysisId
               snapshotId := inp.snapshotId
               author := inp.author
               title := inp.title
               notes := inp.notes
               createdAt := some now
               items := [⟨some s.nextItemId, some s.nextAnalysisId, "auto-generated", 0,
                          some (placeholderPayload uuid)⟩] } : StoredAnalysis))
          ∈ (AnalysisStore.create s inp now uuid).2.analyses := by
  obtain ⟨isn, iau, iti, ino, iit⟩ := inp
  rcases iit with _ | l
  · exact ⟨rfl, mem_mapSet_self _ _ _⟩
  · rcases l with _ | ⟨x, xs⟩
    · exact ⟨rfl, mem_mapSet_self _ _ _⟩
    · refine ⟨?_, ?_⟩
      · rw [create_fst]
        exact buildItems_fields s.nextAnalysisId (x :: xs) s.nextItemId
      · rw [create_fst]
        exact buildItems_length s.nextAnalysisId (x :: xs) s.nextItemId

/-- C6: a freshly constructed store holds exactly the seeded analysis, and
`list()` returns exactly that one record, with id 1, snapshotId 101, author
`"System"`, title `"Initial deployment validation"` (which contains
`"Initial"`), and one item with id 1, label `"deployment-status"`, score 1. -/
theorem c6_seeding (t : String) :
    AnalysisStore.list (createInitialState t) none
      = [{ id := some 1
           snapshotId := 101
           author := "System"
           title := "Initial deployment validation"
           notes := some "Seeded analysis to verify deployment wiring."
           createdAt := some t
           items := [{ id := some 1
                       analysisId := some 1
                       label := "deployment-status"
                       score := 1
                       payload := some (.jObj [("message", .jStr "Vercel preview seeded")]) }] }]
    ∧ "Initial deployment validation" = "Initial" ++ " deployment validation" :=
  ⟨rfl, by decide⟩

/-- C7: in every reachable store state, every stored analysis has at least
one item, and each of its items carries the owning analysis's id as its
`analysisId`. -/
theorem c7_item_association (s : AnalysisState) (p : Nat × StoredAnalysis)
    (hs : Reach s) (hp : p ∈ s.analyses) :
    p.2.items ≠ [] ∧ ∀ it ∈ p.2.items, it.analysisId = p.2.id :=
  reach_items_inv s hs p hp

/-- Witness for C7 at the fresh store's seeded analysis. -/
theorem c7_item_association_witness :
    (seedAnalysis "v").items ≠ []
    ∧ ∀ it ∈ (seedAnalysis "v").items, it.analysisId = (seedAnalysis "v").id :=
  c7_item_association (createInitialState "v") (1, seedAnalysis "v") (Reach.init "v")
    (show (1, seedAnalysis "v") ∈ [(1, seedAnalysis "v")] from List.Mem.head _)

/-- C8: the transport normalization of POST items coincides with its
specification — drop every entry that is not an object or whose coerced label
is empty, keep the rest in order with float-parsed (default 0) scores — and
every kept item has a non-empty label. -/
theorem c8_normalize_items (xs : List JVal) :
    normalizeItems xs = specNormalizeItems xs
    ∧ (normalizeItems xs).all (fun it => it.label != "") = true := by
  constructor
  · induction xs with
    | nil => rfl
    | cons x rest ih =>
      unfold normalizeItems specNormalizeItems at ih ⊢
      simp only [List.map_cons, List.filterMap_cons]
      cases hc : toCandidate x with
      | none =>
        dsimp only
        exact ih
      | some o =>
        simp only [id, List.map_cons, List.filter_cons]
        by_cases hl : (coerceItem o).label = ""
        · have hd : decide (0 < (coerceItem o).label.length) = false := by
            rw [decide_eq_false_iff_not]
            intro hpos
            exact (string_len_pos_iff _).mp hpos hl
          rw [hd, if_pos hl]
          simp only [Bool.false_eq_true, if_false]
          exact ih
        · have hd : decide (0 < (coerceItem o).label.length) = true :=
            decide_eq_true ((string_len_pos_iff _).mpr hl)
          rw [hd, if_neg hl]
          simp only [if_true]
          rw [ih]
  · rw [List.all_eq_true]
    intro it hit
    unfold normalizeItems at hit
    rw [List.mem_filter] at hit
    rw [bne_iff_ne]
    exact (string_len_pos_iff _).mp (of_decide_eq_true hit.2)

/-- C9 (counterexample): a body carrying only the camelCase `snapshotId`
key (no `snapshot_id`) is accepted with 201, so "201 exactly when the body
has an integer-parsable `snapshot_id`" fails on the code. -/
theorem c9_counterexample :
    objGet (JVal.jObj [("snapshotId", .jNum 5), ("author", .jStr "a"), ("title", .jStr "t")])
        "snapshot_id" = none
    ∧ (handlePost (createInitialState "x")
        (JVal.jObj [("snapshotId", .jNum 5), ("author", .jStr "a"), ("title", .jStr "t")])
        "y" "z").1.status = 201 :=
  ⟨rfl, rfl⟩

/-- C9 (amended): the handler responds 201 with the created record exactly
when the body is a (truthy) object whose snapshot id — `snapshot_id`, falling
back to `snapshotId` — parses as an integer and whose author and title are
non-empty strings; otherwise it responds 400 with a non-empty error message
and the store state is unchanged. -/
theorem c9_post_validation (s : AnalysisState) (body : JVal) (now uuid : String) :
    if amendedPostOk body = true then
      ∃ inp, normalizeCreatePayload body = Except.ok inp
        ∧ handlePost s body now uuid
            = (⟨201, some (AnalysisStore.create s inp now uuid).1, none⟩,
               (AnalysisStore.create s inp now uuid).2)
    else
      (handlePost s body now uuid).1.status = 400
      ∧ (handlePost s body now uuid).2 = s
      ∧ ∃ m, (handlePost s body now uuid).1.error = some m ∧ m ≠ "" := by
  cases hnorm : normalizeCreatePayload body with
  | error m =>
    have hko : ¬ amendedPostOk body = true := by
      intro hT
      rcases (amendedPostOk_iff body).mp hT with ⟨inp, hinp⟩
      rw [hnorm] at hinp
      exact Except.noConfusion hinp
    have hH : handlePost s body now uuid = (⟨400, none, some m⟩, s) := by
      unfold handlePost
      rw [hnorm]
    rw [if_neg hko, hH]
    exact ⟨rfl, rfl, m, rfl, normalize_error_ne body m hnorm⟩
  | ok inp =>
    have hok : amendedPostOk body = true := (amendedPostOk_iff body).mpr ⟨inp, hnorm⟩
    have hH : handlePost s body now uuid
        = (⟨201, some (AnalysisStore.create s inp now uuid).1, none⟩,
           (AnalysisStore.create s inp now uuid).2) := by
      unfold handlePost
      rw [hnorm]
    rw [if_pos hok]
    exact ⟨inp, rfl, hH⟩

/-- C10: `list(0)` behaves exactly like `list()` with no argument (the filter
branch is only taken for truthy, i.e. non-zero, snapshot ids), so on a fresh
store `list(0)` returns the seeded record although its snapshotId is 101. -/
theorem c10_list_zero_unfiltered (s : AnalysisState) (t : String) :
    AnalysisStore.list s (some 0) = AnalysisStore.list s none
    ∧ AnalysisStore.list (createInitialState t) (some 0) = [seedAnalysis t] :=
  ⟨rfl, rfl⟩
